import Mathlib

/-!
Verification of the terminal-time-tracker core: a shallow embedding of the
task store (src/taskManager.js), the tracking state machine
(src/timeTracker.js), the goal registry (src/goals.js) and the aggregation
engine (src/analytics.js).

Modelling conventions:
* Timestamps and durations are integers (milliseconds), mirroring
  JavaScript epoch-millisecond arithmetic exactly.
* JavaScript objects used as string-keyed maps are association lists that
  keep insertion order; assigning to an existing key replaces its value in
  place, assigning a fresh key appends at the end, exactly as JS object
  key ordering behaves.
* Calendar intervals are modelled over a fixed local timezone where every
  day is 86400000 ms, weeks are 7 consecutive days starting at the given
  week start, and months are given by their Gregorian day counts; the
  date-fns interval helpers (startOfDay/endOfDay and friends) then become
  affine arithmetic on millisecond offsets. endOfDay etc. are the last
  whole millisecond of the interval, as in date-fns.
* Fallible operations return a result value together with the (possibly
  unchanged) state; the JS functions return error objects, which we encode
  as dedicated result constructors.
-/

namespace TT

/-- Milliseconds in one local day (date-fns interval arithmetic in the
fixed-timezone model). -/
def dayMs : Int := 86400000

/-- A completed session, as appended by stopTracking in timeTracker.js. -/
structure Session where
  task : String
  startTime : Int
  endTime : Int
  duration : Int
deriving Repr, DecidableEq

/-- A task record as created by createTask in taskManager.js.  The goals
field models the optional goals property written by goals.js saveGoals;
the absent property is modelled as the empty list (the code never stores a
present-but-empty goals object: removeGoal deletes the property when the
last period is removed). -/
structure Task where
  id : String
  name : String
  created : Int
  totalTime : Int
  sessions : List Session
  goals : List (String × Int)
deriving Repr, DecidableEq

/-- The tracking record persisted by storage.loadTracking/saveTracking. -/
structure Tracking where
  currentTask : Option String
  startTime : Option Int
  pausedTime : Option Int
  isPaused : Bool
  sessions : List Session
deriving Repr, DecidableEq

/-- The durable store: the tasks object (id → task, insertion ordered)
plus the tracking record. -/
structure State where
  tasks : List (String × Task)
  tracking : Tracking
deriving Repr, DecidableEq

/-- JS object read: first binding of the key, if any. -/
def objGet {α : Type} : List (String × α) → String → Option α
  | [], _ => none
  | (k1, v1) :: rest, k => if k1 = k then some v1 else objGet rest k

/-- JS object write: replace the value of an existing key in place, or
append a fresh key at the end. -/
def objSet {α : Type} : List (String × α) → String → α → List (String × α)
  | [], k, v => [(k, v)]
  | (k1, v1) :: rest, k, v =>
    if k1 = k then (k, v) :: rest else (k1, v1) :: objSet rest k v

/-- JS object delete: drop the binding of the key. -/
def objErase {α : Type} : List (String × α) → String → List (String × α)
  | [], _ => []
  | (k1, v1) :: rest, k => if k1 = k then rest else (k1, v1) :: objErase rest k

/-- Default tracking record returned by storage.loadTracking for a missing
or empty tracking file. -/
def initialTracking : Tracking :=
  { currentTask := none, startTime := none, pausedTime := none,
    isPaused := false, sessions := [] }

/-- The empty durable store (fresh installation). -/
def initialState : State := { tasks := [], tracking := initialTracking }

/-! ## Task store (src/taskManager.js) -/

/-- Whitespace recognised by the String.prototype.trim call in createTask.
Only a subset of the full JS set is listed; valid task-name characters are
never whitespace, which is all the proofs rely on. -/
def jsWhitespace (c : Char) : Bool :=
  c = ' ' || c = '\t' || c = '\n' || c = '\r'

/-- String.prototype.trim: strip leading and trailing whitespace. -/
def jsTrim (s : String) : String :=
  String.mk (((s.data.dropWhile jsWhitespace).reverse.dropWhile jsWhitespace).reverse)

/-- One character of the /^[a-zA-Z0-9_-]+$/ class in isValidTaskName. -/
def isValidChar (c : Char) : Bool :=
  c.isAlphanum || c = '_' || c = '-'

/-- isValidTaskName from taskManager.js: the name matches
/^[a-zA-Z0-9_-]+$/, i.e. it is nonempty and every character is a letter,
digit, hyphen or underscore. -/
def isValidTaskName (s : String) : Bool :=
  !s.isEmpty && s.data.all isValidChar

/-- Result of createTask, mirroring its success/error object. -/
inductive CreateResult
  | emptyName
  | invalidName
  | alreadyExists
  | created (task : Task)
deriving Repr, DecidableEq

/-- createTask from taskManager.js.  now is the Date.now() timestamp of
the call. -/
def createTask (now : Int) (taskName : String) (st : State) : CreateResult × State :=
  if taskName = "" ∨ jsTrim taskName = "" then (.emptyName, st)
  else if !isValidTaskName taskName then (.invalidName, st)
  else
    match objGet st.tasks taskName with
    | some _ => (.alreadyExists, st)
    | none =>
      let newTask : Task :=
        { id := taskName, name := taskName, created := now,
          totalTime := 0, sessions := [], goals := [] }
      (.created newTask, { st with tasks := objSet st.tasks taskName newTask })

/-- getTask from taskManager.js. -/
def getTask (st : State) (taskId : String) : Option Task :=
  objGet st.tasks taskId

/-- Result of deleteTask. -/
inductive DeleteResult
  | notFound
  | deleted
deriving Repr, DecidableEq

/-- deleteTask from taskManager.js: remove the record if present; the
tracking record and other tasks are untouched. -/
def deleteTask (taskId : String) (st : State) : DeleteResult × State :=
  match objGet st.tasks taskId with
  | none => (.notFound, st)
  | some _ => (.deleted, { st with tasks := objErase st.tasks taskId })

/-! ## Tracking state machine (src/timeTracker.js) -/

/-- Result of startTracking. -/
inductive StartResult
  | taskNotFound
  | alreadyTracking (current : String)
  | started (startTime : Int)
deriving Repr, DecidableEq

/-- startTracking from timeTracker.js. -/
def startTracking (now : Int) (taskId : String) (st : State) : StartResult × State :=
  match getTask st taskId with
  | none => (.taskNotFound, st)
  | some _ =>
    match st.tracking.currentTask with
    | some cur => (.alreadyTracking cur, st)
    | none =>
      let newTracking : Tracking :=
        { currentTask := some taskId, startTime := some now,
          pausedTime := none, isPaused := false,
          sessions := st.tracking.sessions }
      (.started now, { st with tracking := newTracking })

/-- Success payload of stopTracking: the returned duration and session. -/
structure StopPayload where
  duration : Int
  session : Session
deriving Repr, DecidableEq

/-- stopTracking from timeTracker.js.  new Date(null) in JS is the epoch,
hence the .getD 0 reading of the stored timestamps. -/
def stopTracking (now : Int) (st : State) : Option StopPayload × State :=
  match st.tracking.currentTask with
  | none => (none, st)
  | some cur =>
    let startT := st.tracking.startTime.getD 0
    let duration :=
      match st.tracking.pausedTime with
      | some pausedStart => (now - startT) - (now - pausedStart)
      | none => now - startT
    let session : Session :=
      { task := cur, startTime := startT, endTime := now, duration := duration }
    let tasks1 :=
      match objGet st.tasks cur with
      | some tk =>
        objSet st.tasks cur
          { tk with sessions := tk.sessions ++ [session],
                    totalTime := tk.totalTime + duration }
      | none => st.tasks
    let clearedTracking : Tracking :=
      { currentTask := none, startTime := none, pausedTime := none,
        isPaused := false, sessions := st.tracking.sessions }
    (some { duration := duration, session := session },
     { tasks := tasks1, tracking := clearedTracking })

/-- Result of pauseTracking. -/
inductive PauseResult
  | noActive
  | alreadyPaused
  | paused
deriving Repr, DecidableEq

/-- pauseTracking from timeTracker.js. -/
def pauseTracking (now : Int) (st : State) : PauseResult × State :=
  match st.tracking.currentTask with
  | none => (.noActive, st)
  | some _ =>
    if st.tracking.isPaused then (.alreadyPaused, st)
    else
      (.paused,
       { st with tracking :=
          { st.tracking with pausedTime := some now, isPaused := true } })

/-- Result of resumeTracking. -/
inductive ResumeResult
  | noActive
  | notPaused
  | resumed
deriving Repr, DecidableEq

/-- resumeTracking from timeTracker.js: shift the stored start forward by
the elapsed pause and clear the pause fields. -/
def resumeTracking (now : Int) (st : State) : ResumeResult × State :=
  match st.tracking.currentTask with
  | none => (.noActive, st)
  | some _ =>
    if !st.tracking.isPaused then (.notPaused, st)
    else
      let pausedStart := st.tracking.pausedTime.getD 0
      let pausedDuration := now - pausedStart
      let originalStart := st.tracking.startTime.getD 0
      let adjustedStart := originalStart + pausedDuration
      (.resumed,
       { st with tracking :=
          { st.tracking with startTime := some adjustedStart,
                             pausedTime := none, isPaused := false } })

/-! ## Goal registry (src/goals.js) -/

/-- VALID_PERIODS from goals.js. -/
def VALID_PERIODS : List String := ["daily", "weekly", "monthly", "yearly"]

/-- isValidGoalPeriod from goals.js. -/
def isValidGoalPeriod (period : String) : Bool :=
  VALID_PERIODS.contains period

/-- loadGoals from goals.js: collect the goals property of every task that
has one (the absent property is the empty list in this model). -/
def loadGoals (tasks : List (String × Task)) : List (String × List (String × Int)) :=
  tasks.filterMap (fun p => if p.2.goals = [] then none else some (p.1, p.2.goals))

/-- saveGoals from goals.js: clear every task's goals property, then
re-attach the entries of the given goals map to the tasks that exist. -/
def saveGoals (tasks : List (String × Task))
    (goals : List (String × List (String × Int))) : List (String × Task) :=
  tasks.map (fun p => (p.1, { p.2 with goals := (objGet goals p.1).getD [] }))

/-- Result of setGoal; saved carries the isUpdate flag reported in the
success message. -/
inductive SetGoalResult
  | invalidPeriod
  | nonPositiveDuration
  | taskNotFound
  | saved (isUpdate : Bool)
deriving Repr, DecidableEq

/-- Whether a SetGoalResult is the success case. -/
def SetGoalResult.isSaved : SetGoalResult → Bool
  | .saved _ => true
  | _ => false

/-- setGoal from goals.js. -/
def setGoal (taskId period : String) (dur : Int) (st : State) : SetGoalResult × State :=
  if !isValidGoalPeriod period then (.invalidPeriod, st)
  else if dur ≤ 0 then (.nonPositiveDuration, st)
  else
    match getTask st taskId with
    | none => (.taskNotFound, st)
    | some _ =>
      let goals := loadGoals st.tasks
      let tg := (objGet goals taskId).getD []
      let isUpdate := (objGet tg period).isSome
      let goals1 := objSet goals taskId (objSet tg period dur)
      (.saved isUpdate, { st with tasks := saveGoals st.tasks goals1 })

/-- Result of removeGoal. -/
inductive RemoveGoalResult
  | noSuchGoal
  | removedPeriod
  | noGoals
  | removedAll
deriving Repr, DecidableEq

/-- removeGoal from goals.js (period given removes that period's goal,
dropping the task's entry when empty; no period removes all goals). -/
def removeGoal (taskId : String) (period : Option String) (st : State) :
    RemoveGoalResult × State :=
  let goals := loadGoals st.tasks
  match period with
  | some p =>
    match objGet goals taskId with
    | none => (.noSuchGoal, st)
    | some tg =>
      match objGet tg p with
      | none => (.noSuchGoal, st)
      | some _ =>
        let tg1 := objErase tg p
        let goals1 :=
          if tg1 = [] then objErase goals taskId else objSet goals taskId tg1
        (.removedPeriod, { st with tasks := saveGoals st.tasks goals1 })
  | none =>
    match objGet goals taskId with
    | none => (.noGoals, st)
    | some _ =>
      (.removedAll, { st with tasks := saveGoals st.tasks (objErase goals taskId) })

/-- getTaskGoals from goals.js. -/
def getTaskGoals (st : State) (taskId : String) : List (String × Int) :=
  (objGet (loadGoals st.tasks) taskId).getD []

/-- getActualTimeForPeriod from goals.js, with the canonical interval of
getTimeRangeForPeriod passed as explicit inclusive millisecond bounds:
sum the durations of the task's sessions whose start timestamp lies in
the interval (isWithinInterval is inclusive at both ends). -/
def getActualTimeForPeriod (st : State) (taskId : String) (intStart intEnd : Int) : Int :=
  match getTask st taskId with
  | none => 0
  | some tk =>
    ((tk.sessions.filter
        (fun s => decide (intStart ≤ s.startTime) && decide (s.startTime ≤ intEnd))).map
      (fun s => s.duration)).sum

/-- Math.round for the exact rational value of the JS expression. -/
def jsRound (x : ℚ) : Int := Int.floor (x + 1/2)

/-- The goal-progress record returned by getGoalProgress. -/
structure GoalProgress where
  goalTime : Int
  actualTime : Int
  percentage : Int
  isAchieved : Bool
  remainingTime : Int
  overTime : Int
deriving Repr, DecidableEq

/-- getGoalProgress from goals.js over the canonical interval of the
period (none when the task has no goal for the period; a stored zero goal
is falsy in JS and also yields null). -/
def getGoalProgress (st : State) (taskId period : String) (intStart intEnd : Int) :
    Option GoalProgress :=
  match objGet (getTaskGoals st taskId) period with
  | none => none
  | some goalTime =>
    if goalTime = 0 then none
    else
      let actualTime := getActualTimeForPeriod st taskId intStart intEnd
      some
        { goalTime := goalTime
          actualTime := actualTime
          percentage := jsRound ((actualTime : ℚ) / (goalTime : ℚ) * 100)
          isAchieved := decide (goalTime ≤ actualTime)
          remainingTime := max 0 (goalTime - actualTime)
          overTime := if goalTime < actualTime then actualTime - goalTime else 0 }

/-- The record returned by getGoalStreak. -/
structure StreakResult where
  currentStreak : Nat
  longestStreak : Nat
  totalAchieved : Nat
deriving Repr, DecidableEq

/-- The loop state of getGoalStreak's for-loop. -/
structure StreakAcc where
  currentStreak : Nat
  longestStreak : Nat
  totalAchieved : Nat
  tempStreak : Nat
deriving Repr, DecidableEq

/-- One iteration of getGoalStreak's loop body, at loop index i.
actualAt i is the getActualTimeForPeriod value of the i-th period
instance counting back from today (the loop's checkDate stepping). -/
def streakStep (goalTime : Int) (actualAt : Nat → Int) (s : StreakAcc) (i : Nat) :
    StreakAcc :=
  if goalTime ≤ actualAt i then
    let temp := s.tempStreak + 1
    { currentStreak := if i = 0 then temp else s.currentStreak
      longestStreak := max s.longestStreak temp
      totalAchieved := s.totalAchieved + 1
      tempStreak := temp }
  else
    { currentStreak := if i = 0 then 0 else s.currentStreak
      longestStreak := s.longestStreak
      totalAchieved := s.totalAchieved
      tempStreak := 0 }

/-- getGoalStreak from goals.js: fold the loop body over i = 0, …, 29,
starting from all-zero counters, and return the three counters. -/
def getGoalStreak (goalTime : Int) (actualAt : Nat → Int) : StreakResult :=
  let s := (List.range 30).foldl (streakStep goalTime actualAt)
    { currentStreak := 0, longestStreak := 0, totalAchieved := 0, tempStreak := 0 }
  { currentStreak := s.currentStreak, longestStreak := s.longestStreak,
    totalAchieved := s.totalAchieved }

/-- The list of per-instance achievement flags examined by
getGoalStreak's loop, most recent instance first. -/
def achievedList (goalTime : Int) (actualAt : Nat → Int) : List Bool :=
  (List.range 30).map (fun i => decide (goalTime ≤ actualAt i))

/-- Spec-side: length of the leading all-true run of a flag list — the
number of consecutive achieved instances counting from the most recent. -/
def runFrom : List Bool → Nat
  | [] => 0
  | b :: t => if b then runFrom t + 1 else 0

/-- Spec-side: the longest all-true run anywhere in the flag list, as the
maximum over all suffixes of their leading-run length. -/
def maxRun : List Bool → Nat
  | [] => 0
  | l@(_ :: t) => max (runFrom l) (maxRun t)

/-- Proof helper: the trailing-run accumulator of the streak loop. -/
def trailAux (t : Nat) : List Bool → Nat
  | [] => t
  | b :: rest => trailAux (if b then t + 1 else 0) rest

/-- Proof helper: the running-maximum accumulator of the streak loop,
entered with a current run of length t. -/
def maxRunAux (t : Nat) : List Bool → Nat
  | [] => t
  | b :: rest => if b then maxRunAux (t + 1) rest else max t (maxRunAux 0 rest)

/-! ## Aggregation engine (src/analytics.js) -/

/-- Total duration of a list of sessions (the reduce over durations used
throughout analytics.js). -/
def sumDurations (l : List Session) : Int :=
  (l.map (fun s => s.duration)).sum

/-- filterSessionsByDateRange from analytics.js: keep the sessions whose
start timestamp lies within the inclusive interval (isWithinInterval). -/
def filterSessionsByDateRange (sessions : List Session) (startDate endDate : Int) :
    List Session :=
  sessions.filter
    (fun s => decide (startDate ≤ s.startTime) && decide (s.startTime ≤ endDate))

/-- One value of the groupedByTask object built by groupSessionsByTask. -/
structure TaskGroup where
  name : String
  totalTime : Int
  sessions : List Session
deriving Repr, DecidableEq

/-- Insert one session into the grouped object: add to the existing group
of its task, or append a new group (fresh JS object key). -/
def insertIntoGroups : List TaskGroup → Session → List TaskGroup
  | [], s => [{ name := s.task, totalTime := s.duration, sessions := [s] }]
  | g :: rest, s =>
    if g.name = s.task then
      { g with totalTime := g.totalTime + s.duration,
               sessions := g.sessions ++ [s] } :: rest
    else g :: insertIntoGroups rest s

/-- groupSessionsByTask from analytics.js. -/
def groupSessionsByTask (sessions : List Session) : List TaskGroup :=
  sessions.foldl insertIntoGroups []

/-- The stable descending sort by totalTime applied to the grouped tasks
(Array.prototype.sort with comparator b.totalTime − a.totalTime). -/
def sortByTotalDesc (l : List TaskGroup) : List TaskGroup :=
  l.mergeSort (fun a b => decide (b.totalTime ≤ a.totalTime))

/-- All sessions of all tasks, collected in task insertion order
(the Object.values push loop shared by the analytics queries). -/
def allSessionsOf (tasks : List (String × Task)) : List Session :=
  (tasks.map (fun p => p.2.sessions)).flatten

/-- Daily report (getDailyAnalytics), with the interval given as its
start-of-day millisecond timestamp. -/
structure DailyReport where
  startDate : Int
  endDate : Int
  totalTime : Int
  tasks : List TaskGroup
deriving Repr, DecidableEq

/-- getDailyAnalytics from analytics.js in the fixed-timezone model:
dayStart is startOfDay(targetDate), the interval is one full day. -/
def getDailyAnalytics (tasks : List (String × Task)) (dayStart : Int) : DailyReport :=
  let dayEnd := dayStart + dayMs - 1
  let allSessions := allSessionsOf tasks
  let daySessions := filterSessionsByDateRange allSessions dayStart dayEnd
  let groupedByTask := groupSessionsByTask daySessions
  let totalTime := (groupedByTask.map (fun g => g.totalTime)).sum
  { startDate := dayStart, endDate := dayEnd, totalTime := totalTime,
    tasks := sortByTotalDesc groupedByTask }

/-- One entry of the weekly report's dailyBreakdown. -/
structure DayBucket where
  date : Int
  totalTime : Int
  tasks : List TaskGroup
deriving Repr, DecidableEq

/-- Weekly report (getWeeklyAnalytics). -/
structure WeeklyReport where
  startDate : Int
  endDate : Int
  totalTime : Int
  tasks : List TaskGroup
  dailyBreakdown : List DayBucket
deriving Repr, DecidableEq

/-- getWeeklyAnalytics from analytics.js: weekStart is
startOfWeek(targetDate) (a Monday midnight), the interval spans 7 days,
and eachDayOfInterval yields the 7 consecutive day starts. -/
def getWeeklyAnalytics (tasks : List (String × Task)) (weekStart : Int) : WeeklyReport :=
  let weekEnd := weekStart + 7 * dayMs - 1
  let allSessions := allSessionsOf tasks
  let weekSessions := filterSessionsByDateRange allSessions weekStart weekEnd
  let groupedByTask := groupSessionsByTask weekSessions
  let totalTime := (groupedByTask.map (fun g => g.totalTime)).sum
  let dailyBreakdown := (List.range 7).map (fun (i : Nat) =>
    let dayStart := weekStart + (i : Int) * dayMs
    let dayEnd := dayStart + dayMs - 1
    let daySessions := filterSessionsByDateRange weekSessions dayStart dayEnd
    { date := dayStart, totalTime := sumDurations daySessions,
      tasks := groupSessionsByTask daySessions : DayBucket })
  { startDate := weekStart, endDate := weekEnd, totalTime := totalTime,
    tasks := sortByTotalDesc groupedByTask, dailyBreakdown := dailyBreakdown }

/-- Monthly report (getMonthlyAnalytics): top-level totals and grouping.
The weeklyBreakdown of the JS function is not modelled; no claim refers
to it. -/
structure MonthlyReport where
  startDate : Int
  endDate : Int
  totalTime : Int
  tasks : List TaskGroup
deriving Repr, DecidableEq

/-- getMonthlyAnalytics from analytics.js (top level): monthStart is
startOfMonth(targetDate) and monthLen its day count. -/
def getMonthlyAnalytics (tasks : List (String × Task)) (monthStart monthLen : Int) :
    MonthlyReport :=
  let monthEnd := monthStart + monthLen * dayMs - 1
  let allSessions := allSessionsOf tasks
  let monthSessions := filterSessionsByDateRange allSessions monthStart monthEnd
  let groupedByTask := groupSessionsByTask monthSessions
  let totalTime := (groupedByTask.map (fun g => g.totalTime)).sum
  { startDate := monthStart, endDate := monthEnd, totalTime := totalTime,
    tasks := sortByTotalDesc groupedByTask }

/-- Gregorian month lengths in days for the reference year
(eachMonthOfInterval / endOfMonth calendar arithmetic). -/
def monthLengths (leap : Bool) : List Int :=
  [31, if leap then 29 else 28, 31, 30, 31, 30, 31, 31, 30, 31, 30, 31]

/-- The (monthStart, dayCount) pairs of consecutive calendar months
starting at the given timestamp. -/
def monthIntervals (start : Int) : List Int → List (Int × Int)
  | [] => []
  | len :: rest => (start, len) :: monthIntervals (start + len * dayMs) rest

/-- One entry of the yearly report's monthlyBreakdown. -/
structure MonthBucket where
  month : Int
  totalTime : Int
  tasks : List TaskGroup
deriving Repr, DecidableEq

/-- Yearly report (getYearlyAnalytics). -/
structure YearlyReport where
  startDate : Int
  endDate : Int
  totalTime : Int
  tasks : List TaskGroup
  monthlyBreakdown : List MonthBucket
deriving Repr, DecidableEq

/-- getYearlyAnalytics from analytics.js: yearStart is
startOfYear(targetDate), leap tells whether the reference year is a leap
year, and eachMonthOfInterval yields the 12 calendar month starts. -/
def getYearlyAnalytics (tasks : List (String × Task)) (yearStart : Int) (leap : Bool) :
    YearlyReport :=
  let lens := monthLengths leap
  let yearEnd := yearStart + lens.sum * dayMs - 1
  let allSessions := allSessionsOf tasks
  let yearSessions := filterSessionsByDateRange allSessions yearStart yearEnd
  let groupedByTask := groupSessionsByTask yearSessions
  let totalTime := (groupedByTask.map (fun g => g.totalTime)).sum
  let monthlyBreakdown := (monthIntervals yearStart lens).map (fun mi =>
    let monthEnd := mi.1 + mi.2 * dayMs - 1
    let monthSessions := filterSessionsByDateRange yearSessions mi.1 monthEnd
    { month := mi.1, totalTime := sumDurations monthSessions,
      tasks := groupSessionsByTask monthSessions : MonthBucket })
  { startDate := yearStart, endDate := yearEnd, totalTime := totalTime,
    tasks := sortByTotalDesc groupedByTask, monthlyBreakdown := monthlyBreakdown }

/-! ## Operation sequences over the durable store -/

/-- One state-mutating operation of the public API, carrying the
Date.now() timestamp of the call where the code reads the clock. -/
inductive Op
  | create (now : Int) (name : String)
  | del (name : String)
  | start (now : Int) (name : String)
  | stop (now : Int)
  | pause (now : Int)
  | resume (now : Int)
  | setG (taskId period : String) (dur : Int)
  | removeG (taskId : String) (period : Option String)
deriving Repr, DecidableEq

/-- Whether the operation is deleteTask. -/
def Op.isDel : Op → Bool
  | .del _ => true
  | _ => false

/-- Apply one operation to the store, keeping only the resulting state. -/
def applyOp (st : State) : Op → State
  | .create now name => (createTask now name st).2
  | .del name => (deleteTask name st).2
  | .start now name => (startTracking now name st).2
  | .stop now => (stopTracking now st).2
  | .pause now => (pauseTracking now st).2
  | .resume now => (resumeTracking now st).2
  | .setG t p d => (setGoal t p d st).2
  | .removeG t p => (removeGoal t p st).2

/-- Run a sequence of operations from the empty store. -/
def runOps (ops : List Op) : State :=
  ops.foldl applyOp initialState

/-- The denormalised-total invariant: every task's stored totalTime is
the sum of its sessions' durations. -/
def totalsInv (tasks : List (String × Task)) : Prop :=
  ∀ p ∈ tasks, p.2.totalTime = sumDurations p.2.sessions

/-- The tracking-reference invariant: a non-null current task names a
task present in the store. -/
def trackInv (st : State) : Prop :=
  ∀ t, st.tracking.currentTask = some t → (objGet st.tasks t).isSome = true

/-! ## Association-list lemmas (JS object semantics) -/

theorem objGet_objSet_self {α : Type} (l : List (String × α)) (k : String) (v : α) :
    objGet (objSet l k v) k = some v := by
  induction l with
  | nil => simp [objSet, objGet]
  | cons hd tl ih =>
    by_cases h : hd.1 = k
    · simp [objSet, objGet, h]
    · simp [objSet, objGet, h, ih]

theorem objGet_objSet_other {α : Type} (l : List (String × α)) (k k2 : String) (v : α)
    (h : k2 ≠ k) : objGet (objSet l k v) k2 = objGet l k2 := by
  induction l with
  | nil => simp [objSet, objGet, Ne.symm h]
  | cons hd tl ih =>
    obtain ⟨k1, v1⟩ := hd
    by_cases hk : k1 = k
    · subst hk
      simp [objSet, objGet, Ne.symm h]
    · simp [objSet, objGet, hk, ih]

theorem mem_objSet {α : Type} {l : List (String × α)} {k : String} {v : α}
    {a : String × α} (h : a ∈ objSet l k v) : a = (k, v) ∨ a ∈ l := by
  induction l with
  | nil => simpa [objSet] using h
  | cons hd tl ih =>
    obtain ⟨k1, v1⟩ := hd
    by_cases hk : k1 = k
    · simp only [objSet, if_pos hk, List.mem_cons] at h
      rcases h with h1 | h1
      · exact Or.inl h1
      · exact Or.inr (List.mem_cons_of_mem _ h1)
    · simp only [objSet, if_neg hk, List.mem_cons] at h
      rcases h with h1 | h1
      · exact Or.inr (h1 ▸ List.mem_cons_self _ _)
      · rcases ih h1 with h2 | h2
        · exact Or.inl h2
        · exact Or.inr (List.mem_cons_of_mem _ h2)

theorem mem_objErase {α : Type} {l : List (String × α)} {k : String}
    {a : String × α} (h : a ∈ objErase l k) : a ∈ l := by
  induction l with
  | nil => simp [objErase] at h
  | cons hd tl ih =>
    obtain ⟨k1, v1⟩ := hd
    by_cases hk : k1 = k
    · simp only [objErase, if_pos hk] at h
      exact List.mem_cons_of_mem _ h
    · simp only [objErase, if_neg hk, List.mem_cons] at h
      rcases h with h1 | h1
      · exact h1 ▸ List.mem_cons_self _ _
      · exact List.mem_cons_of_mem _ (ih h1)

theorem objGet_mem {α : Type} {l : List (String × α)} {k : String} {v : α}
    (h : objGet l k = some v) : (k, v) ∈ l := by
  induction l with
  | nil => simp [objGet] at h
  | cons hd tl ih =>
    by_cases hk : hd.1 = k
    · simp only [objGet, if_pos hk] at h
      obtain ⟨k1, v1⟩ := hd
      obtain rfl : k1 = k := hk
      obtain rfl : v1 = v := by simpa using h
      exact List.mem_cons_self _ _
    · simp only [objGet, if_neg hk] at h
      exact List.mem_cons_of_mem _ (ih h)

theorem objGet_map_snd {α β : Type} (f : String → α → β) (l : List (String × α))
    (k : String) :
    objGet (l.map (fun p => (p.1, f p.1 p.2))) k = (objGet l k).map (f k) := by
  induction l with
  | nil => simp [objGet]
  | cons hd tl ih =>
    by_cases hk : hd.1 = k
    · subst hk
      simp [objGet, ih]
    · simp [objGet, hk, ih]

/-! ## C1: stopping while paused excludes the open pause interval -/

/-- C1: for every tracking state that is Paused (current task set, pause
timestamp set, recorded start timestamp set), stopTracking succeeds and
the returned duration and the finalized session's duration both equal
(pause timestamp − start timestamp): time elapsed between the pause and
the stop call is excluded. -/
theorem stop_from_paused_duration (st : State) (t : String) (s0 p now : Int)
    (hcur : st.tracking.currentTask = some t)
    (hstart : st.tracking.startTime = some s0)
    (hpause : st.tracking.pausedTime = some p) :
    (stopTracking now st).1.isSome = true ∧
    (stopTracking now st).1.map (fun pl => pl.duration) = some (p - s0) ∧
    (stopTracking now st).1.map (fun pl => pl.session.duration) = some (p - s0) := by
  simp only [stopTracking, hcur, hstart, hpause, Option.getD_some]
  refine ⟨rfl, ?_, ?_⟩ <;> simp

/-- Witness for C1 at a concrete paused store: started at 100, paused at
250, stopped at 999; duration is 150. -/
theorem stop_from_paused_duration_witness :
    (stopTracking 999 { tasks := [], tracking :=
        { currentTask := some "a", startTime := some 100, pausedTime := some 250,
          isPaused := true, sessions := [] } }).1.isSome = true ∧
    (stopTracking 999 { tasks := [], tracking :=
        { currentTask := some "a", startTime := some 100, pausedTime := some 250,
          isPaused := true, sessions := [] } }).1.map (fun pl => pl.duration) =
      some 150 ∧
    (stopTracking 999 { tasks := [], tracking :=
        { currentTask := some "a", startTime := some 100, pausedTime := some 250,
          isPaused := true, sessions := [] } }).1.map
        (fun pl => pl.session.duration) = some 150 := by
  have h := stop_from_paused_duration
    { tasks := [], tracking :=
        { currentTask := some "a", startTime := some 100, pausedTime := some 250,
          isPaused := true, sessions := [] } } "a" 100 250 999 rfl rfl rfl
  simpa using h

/-! ## C2: resume shifts the start timestamp by the pause length -/

/-- C2: in a run start(s) → pause(p) → resume(r) → stop(e) with no
interleaving operations, resume stores start timestamp s + (r − p) and
clears the pause fields, and the stop reports duration
(e − s) − (r − p). -/
theorem start_pause_resume_stop_duration (st : State) (t : String) (s p r e : Int)
    (htask : (objGet st.tasks t).isSome = true)
    (hidle : st.tracking.currentTask = none) :
    (resumeTracking r (pauseTracking p (startTracking s t st).2).2).2.tracking.startTime
        = some (s + (r - p)) ∧
    (resumeTracking r (pauseTracking p (startTracking s t st).2).2).2.tracking.pausedTime
        = none ∧
    (resumeTracking r (pauseTracking p (startTracking s t st).2).2).2.tracking.isPaused
        = false ∧
    (stopTracking e
        (resumeTracking r (pauseTracking p (startTracking s t st).2).2).2).1.map
        (fun pl => pl.duration) = some ((e - s) - (r - p)) := by
  obtain ⟨tk, htk⟩ := Option.isSome_iff_exists.mp htask
  simp [startTracking, getTask, htk, hidle, pauseTracking, resumeTracking,
    stopTracking]
  ring

/-- Witness for C2: task "a" created at 0, started at 10, paused at 20,
resumed at 35, stopped at 50; the adjusted start is 25 and the duration
is 25 = (50 − 10) − (35 − 20). -/
theorem start_pause_resume_stop_duration_witness :
    (resumeTracking 35 (pauseTracking 20
        (startTracking 10 "a" (createTask 0 "a" initialState).2).2).2).2.tracking.startTime
        = some 25 ∧
    (stopTracking 50 (resumeTracking 35 (pauseTracking 20
        (startTracking 10 "a" (createTask 0 "a" initialState).2).2).2).2).1.map
        (fun pl => pl.duration) = some 25 := by
  have h := start_pause_resume_stop_duration
    (createTask 0 "a" initialState).2 "a" 10 20 35 50 (by decide) (by decide)
  exact ⟨by simpa using h.1, by simpa using h.2.2.2⟩

/-! ## Shape lemmas: how each operation changes the store -/

theorem createTask_tracking (now : Int) (name : String) (st : State) :
    (createTask now name st).2.tracking = st.tracking := by
  unfold createTask
  split
  · rfl
  · split
    · rfl
    · cases hg : objGet st.tasks name <;> simp [hg]

theorem createTask_tasks (now : Int) (name : String) (st : State) :
    (createTask now name st).2.tasks = st.tasks ∨
    (createTask now name st).2.tasks =
      objSet st.tasks name
        { id := name, name := name, created := now, totalTime := 0,
          sessions := [], goals := [] } := by
  unfold createTask
  split
  · exact Or.inl rfl
  · split
    · exact Or.inl rfl
    · cases hg : objGet st.tasks name <;> simp [hg]

theorem deleteTask_tracking (name : String) (st : State) :
    (deleteTask name st).2.tracking = st.tracking := by
  cases hg : objGet st.tasks name <;> simp [deleteTask, hg]

theorem deleteTask_tasks (name : String) (st : State) :
    (deleteTask name st).2.tasks = st.tasks ∨
    (deleteTask name st).2.tasks = objErase st.tasks name := by
  cases hg : objGet st.tasks name <;> simp [deleteTask, hg]

theorem startTracking_tasks (now : Int) (t : String) (st : State) :
    (startTracking now t st).2.tasks = st.tasks := by
  cases hg : objGet st.tasks t with
  | none => simp [startTracking, getTask, hg]
  | some tk =>
    cases hc : st.tracking.currentTask <;> simp [startTracking, getTask, hg, hc]

theorem pauseTracking_tasks (now : Int) (st : State) :
    (pauseTracking now st).2.tasks = st.tasks := by
  cases hc : st.tracking.currentTask with
  | none => simp [pauseTracking, hc]
  | some cur => by_cases hp : st.tracking.isPaused <;> simp [pauseTracking, hc, hp]

theorem pauseTracking_currentTask (now : Int) (st : State) :
    (pauseTracking now st).2.tracking.currentTask = st.tracking.currentTask := by
  cases hc : st.tracking.currentTask with
  | none => simp [pauseTracking, hc]
  | some cur => by_cases hp : st.tracking.isPaused <;> simp [pauseTracking, hc, hp]

theorem resumeTracking_tasks (now : Int) (st : State) :
    (resumeTracking now st).2.tasks = st.tasks := by
  cases hc : st.tracking.currentTask with
  | none => simp [resumeTracking, hc]
  | some cur => by_cases hp : st.tracking.isPaused <;> simp [resumeTracking, hc, hp]

theorem resumeTracking_currentTask (now : Int) (st : State) :
    (resumeTracking now st).2.tracking.currentTask = st.tracking.currentTask := by
  cases hc : st.tracking.currentTask with
  | none => simp [resumeTracking, hc]
  | some cur => by_cases hp : st.tracking.isPaused <;> simp [resumeTracking, hc, hp]

theorem stopTracking_tasks (now : Int) (st : State) :
    (stopTracking now st).2.tasks = st.tasks ∨
    ∃ cur tk s, objGet st.tasks cur = some tk ∧
      (stopTracking now st).2.tasks =
        objSet st.tasks cur
          { tk with sessions := tk.sessions ++ [s],
                    totalTime := tk.totalTime + s.duration } := by
  cases hc : st.tracking.currentTask with
  | none => exact Or.inl (by simp [stopTracking, hc])
  | some cur =>
    cases hg : objGet st.tasks cur with
    | none => exact Or.inl (by simp [stopTracking, hc, hg])
    | some tk =>
      right
      cases hp : st.tracking.pausedTime with
      | none =>
        exact ⟨cur, tk,
          { task := cur, startTime := st.tracking.startTime.getD 0, endTime := now,
            duration := now - st.tracking.startTime.getD 0 },
          hg, by simp [stopTracking, hc, hg, hp]⟩
      | some p =>
        exact ⟨cur, tk,
          { task := cur, startTime := st.tracking.startTime.getD 0, endTime := now,
            duration := (now - st.tracking.startTime.getD 0) - (now - p) },
          hg, by simp [stopTracking, hc, hg, hp]⟩

theorem setGoal_tracking (t p : String) (d : Int) (st : State) :
    (setGoal t p d st).2.tracking = st.tracking := by
  unfold setGoal
  split
  · rfl
  · split
    · rfl
    · cases hg : getTask st t <;> simp [hg]

theorem setGoal_tasks (t p : String) (d : Int) (st : State) :
    (setGoal t p d st).2.tasks = st.tasks ∨
    ∃ gs, (setGoal t p d st).2.tasks = saveGoals st.tasks gs := by
  unfold setGoal
  split
  · exact Or.inl rfl
  · split
    · exact Or.inl rfl
    · cases hg : getTask st t with
      | none => simp [hg]
      | some tk =>
        refine Or.inr ⟨objSet (loadGoals st.tasks) t
          (objSet ((objGet (loadGoals st.tasks) t).getD []) p d), ?_⟩
        simp [hg]

theorem removeGoal_tracking (t : String) (p : Option String) (st : State) :
    (removeGoal t p st).2.tracking = st.tracking := by
  cases p with
  | none => cases hg : objGet (loadGoals st.tasks) t <;> simp [removeGoal, hg]
  | some pd =>
    cases hg : objGet (loadGoals st.tasks) t with
    | none => simp [removeGoal, hg]
    | some tg =>
      cases hgp : objGet tg pd with
      | none => simp [removeGoal, hg, hgp]
      | some d =>
        by_cases he : objErase tg pd = [] <;> simp [removeGoal, hg, hgp, he]

theorem removeGoal_tasks (t : String) (p : Option String) (st : State) :
    (removeGoal t p st).2.tasks = st.tasks ∨
    ∃ gs, (removeGoal t p st).2.tasks = saveGoals st.tasks gs := by
  cases p with
  | none =>
    cases hg : objGet (loadGoals st.tasks) t with
    | none => exact Or.inl (by simp [removeGoal, hg])
    | some tg =>
      exact Or.inr ⟨objErase (loadGoals st.tasks) t, by simp [removeGoal, hg]⟩
  | some pd =>
    cases hg : objGet (loadGoals st.tasks) t with
    | none => exact Or.inl (by simp [removeGoal, hg])
    | some tg =>
      cases hgp : objGet tg pd with
      | none => exact Or.inl (by simp [removeGoal, hg, hgp])
      | some d =>
        refine Or.inr ⟨if objErase tg pd = [] then objErase (loadGoals st.tasks) t
          else objSet (loadGoals st.tasks) t (objErase tg pd), ?_⟩
        by_cases he : objErase tg pd = [] <;> simp [removeGoal, hg, hgp, he]

/-! ## C10: stopping when the tracked task was deleted -/

/-- C10: if tracking is active but the current task is absent from the
store, stopTracking still succeeds with the computed duration, leaves
every task record untouched (no session appended, no total changed), and
resets the tracking record to Idle. -/
theorem stop_missing_task (st : State) (t : String) (now : Int)
    (hcur : st.tracking.currentTask = some t)
    (hmiss : objGet st.tasks t = none) :
    (stopTracking now st).1.isSome = true ∧
    (stopTracking now st).2.tasks = st.tasks ∧
    (stopTracking now st).2.tracking =
      { currentTask := none, startTime := none, pausedTime := none,
        isPaused := false, sessions := st.tracking.sessions } ∧
    (stopTracking now st).1.map (fun pl => pl.duration) =
      some (match st.tracking.pausedTime with
            | some p => (now - st.tracking.startTime.getD 0) - (now - p)
            | none => now - st.tracking.startTime.getD 0) := by
  cases hp : st.tracking.pausedTime <;>
    simp [stopTracking, hcur, hmiss, hp]

/-- Witness for C10: a store whose tracking references the absent task
"gone"; stopping at 500 succeeds with duration 400, changes no task and
clears the tracking record. -/
theorem stop_missing_task_witness :
    (stopTracking 500 { tasks := [], tracking :=
        { currentTask := some "gone", startTime := some 100, pausedTime := none,
          isPaused := false, sessions := [] } }).1.isSome = true ∧
    (stopTracking 500 { tasks := [], tracking :=
        { currentTask := some "gone", startTime := some 100, pausedTime := none,
          isPaused := false, sessions := [] } }).2.tasks = [] ∧
    (stopTracking 500 { tasks := [], tracking :=
        { currentTask := some "gone", startTime := some 100, pausedTime := none,
          isPaused := false, sessions := [] } }).1.map (fun pl => pl.duration) =
      some 400 := by
  have h := stop_missing_task
    { tasks := [], tracking :=
        { currentTask := some "gone", startTime := some 100, pausedTime := none,
          isPaused := false, sessions := [] } } "gone" 500 rfl rfl
  exact ⟨h.1, h.2.1, by simpa using h.2.2.2⟩

/-! ## C7: stored totals equal the sum of session durations -/

theorem sumDurations_append_single (l : List Session) (s : Session) :
    sumDurations (l ++ [s]) = sumDurations l + s.duration := by
  simp [sumDurations]

theorem totalsInv_saveGoals {tasks : List (String × Task)} (h : totalsInv tasks)
    (gs : List (String × List (String × Int))) : totalsInv (saveGoals tasks gs) := by
  intro p hp
  simp only [saveGoals, List.mem_map] at hp
  obtain ⟨q, hq, rfl⟩ := hp
  exact h q hq

theorem totalsInv_applyOp (st : State) (op : Op) (h : totalsInv st.tasks) :
    totalsInv (applyOp st op).tasks := by
  cases op with
  | create now name =>
    simp only [applyOp]
    rcases createTask_tasks now name st with he | he <;> rw [he]
    · exact h
    · intro p hp
      rcases mem_objSet hp with rfl | hp2
      · simp [sumDurations]
      · exact h p hp2
  | del name =>
    simp only [applyOp]
    rcases deleteTask_tasks name st with he | he <;> rw [he]
    · exact h
    · exact fun p hp => h p (mem_objErase hp)
  | start now name =>
    simp only [applyOp]
    rw [startTracking_tasks]
    exact h
  | stop now =>
    simp only [applyOp]
    rcases stopTracking_tasks now st with he | ⟨cur, tk, s, hg, he⟩ <;> rw [he]
    · exact h
    · intro p hp
      rcases mem_objSet hp with rfl | hp2
      · have := h (cur, tk) (objGet_mem hg)
        simpa [sumDurations_append_single] using this
      · exact h p hp2
  | pause now =>
    simp only [applyOp]
    rw [pauseTracking_tasks]
    exact h
  | resume now =>
    simp only [applyOp]
    rw [resumeTracking_tasks]
    exact h
  | setG t p d =>
    simp only [applyOp]
    rcases setGoal_tasks t p d st with he | ⟨gs, he⟩ <;> rw [he]
    · exact h
    · exact totalsInv_saveGoals h gs
  | removeG t p =>
    simp only [applyOp]
    rcases removeGoal_tasks t p st with he | ⟨gs, he⟩ <;> rw [he]
    · exact h
    · exact totalsInv_saveGoals h gs

/-- C7: after every sequence of committed operations from the initial
store (creations, tracking transitions including completed stops,
deletions, goal updates), every task record's stored totalTime equals
the sum of the duration fields of its session list. -/
theorem totals_invariant_runOps (ops : List Op) : totalsInv (runOps ops).tasks := by
  suffices hgen : ∀ (l : List Op) (st : State), totalsInv st.tasks →
      totalsInv (l.foldl applyOp st).tasks by
    refine hgen ops initialState ?_
    intro p hp
    simp [initialState] at hp
  intro l
  induction l with
  | nil => exact fun st h => h
  | cons op rest ih =>
    intro st h
    exact ih (applyOp st op) (totalsInv_applyOp st op h)

/-! ## C4: the tracking reference and the task store -/

/-- C4 counterexample: from the initial store, create task "a", start
tracking it, then delete it.  The tracking state still references "a"
even though "a" is absent from the task store, so the claimed invariant
fails after this operation sequence. -/
theorem tracking_refs_deleted_task :
    ¬ trackInv (runOps [.create 0 "a", .start 1 "a", .del "a"]) := by
  intro h
  exact absurd (h "a" (by decide)) (by decide)

theorem objGet_saveGoals_isSome (tasks : List (String × Task))
    (gs : List (String × List (String × Int))) (k : String) :
    (objGet (saveGoals tasks gs) k).isSome = (objGet tasks k).isSome := by
  induction tasks with
  | nil => simp [saveGoals, objGet]
  | cons hd tl ih =>
    by_cases hk : hd.1 = k
    · simp [saveGoals, objGet, hk]
    · simpa [saveGoals, objGet, hk] using ih

/-- C4 (amended): deleteTask is the one operation that can break the
tracking-reference invariant.  Every other operation — createTask,
startTracking (which requires the task to exist), stopTracking,
pauseTracking, resumeTracking, setGoal, removeGoal — preserves it. -/
theorem trackInv_preserved_without_delete (st : State) (op : Op)
    (hop : op.isDel = false) (h : trackInv st) : trackInv (applyOp st op) := by
  cases op with
  | del name => simp [Op.isDel] at hop
  | create now name =>
    intro t ht
    rw [applyOp, createTask_tracking] at ht
    have hs := h t ht
    simp only [applyOp]
    rcases createTask_tasks now name st with he | he <;> rw [he]
    · exact hs
    · by_cases hn : t = name
      · subst hn
        simp [objGet_objSet_self]
      · rw [objGet_objSet_other _ _ _ _ hn]
        exact hs
  | start now name =>
    intro t ht
    cases hg : objGet st.tasks name with
    | none =>
      simp only [applyOp, startTracking, getTask, hg] at ht ⊢
      exact h t ht
    | some tk =>
      cases hc : st.tracking.currentTask with
      | some cur =>
        simp only [applyOp, startTracking, getTask, hg, hc] at ht ⊢
        exact h t (hc.trans ht)
      | none =>
        simp only [applyOp, startTracking, getTask, hg, hc, Option.some.injEq] at ht ⊢
        subst ht
        simp [hg]
  | stop now =>
    intro t ht
    cases hc : st.tracking.currentTask with
    | none =>
      simp only [applyOp, stopTracking, hc] at ht ⊢
      exact h t (hc.trans ht)
    | some cur =>
      simp [applyOp, stopTracking, hc] at ht
  | pause now =>
    intro t ht
    rw [applyOp, pauseTracking_currentTask] at ht
    rw [applyOp, pauseTracking_tasks]
    exact h t ht
  | resume now =>
    intro t ht
    rw [applyOp, resumeTracking_currentTask] at ht
    rw [applyOp, resumeTracking_tasks]
    exact h t ht
  | setG tid p d =>
    intro t ht
    rw [applyOp, setGoal_tracking] at ht
    have hs := h t ht
    simp only [applyOp]
    rcases setGoal_tasks tid p d st with he | ⟨gs, he⟩ <;> rw [he]
    · exact hs
    · rw [objGet_saveGoals_isSome]
      exact hs
  | removeG tid p =>
    intro t ht
    rw [applyOp, removeGoal_tracking] at ht
    have hs := h t ht
    simp only [applyOp]
    rcases removeGoal_tasks tid p st with he | ⟨gs, he⟩ <;> rw [he]
    · exact hs
    · rw [objGet_saveGoals_isSome]
      exact hs

/-- Witness for the amended C4: a concrete non-delete operation applied
to a store satisfying the invariant still satisfies it. -/
theorem trackInv_preserved_without_delete_witness :
    trackInv (applyOp (runOps [.create 0 "a", .start 1 "a"]) (.pause 2)) := by
  refine trackInv_preserved_without_delete _ (.pause 2) rfl ?_
  intro t ht
  have hcur : (runOps [.create 0 "a", .start 1 "a"]).tracking.currentTask =
      some "a" := by decide
  rw [hcur] at ht
  obtain rfl : "a" = t := by simpa using ht
  decide

/-! ## C9: createTask round-trip for valid names -/

theorem isValidChar_not_ws {c : Char} (h : isValidChar c = true) :
    jsWhitespace c = false := by
  by_contra hw
  rw [Bool.not_eq_false] at hw
  have hcases : ((c = ' ' ∨ c = '\t') ∨ c = '\n') ∨ c = '\r' := by
    simpa [jsWhitespace] using hw
  rcases hcases with ((rfl | rfl) | rfl) | rfl <;> exact absurd h (by decide)

theorem dropWhile_eq_self_of_all {p : Char → Bool} {l : List Char}
    (h : ∀ c ∈ l, p c = false) : l.dropWhile p = l := by
  cases l with
  | nil => rfl
  | cons hd tl => simp [List.dropWhile_cons, h hd (List.mem_cons_self hd tl)]

theorem jsTrim_of_valid {s : String} (h : isValidTaskName s = true) : jsTrim s = s := by
  have hall : ∀ c ∈ s.data, isValidChar c = true := by
    have h2 := (Bool.and_eq_true _ _).mp h
    simpa [List.all_eq_true] using h2.2
  have hws : ∀ c ∈ s.data, jsWhitespace c = false :=
    fun c hc => isValidChar_not_ws (hall c hc)
  unfold jsTrim
  rw [dropWhile_eq_self_of_all hws,
    dropWhile_eq_self_of_all (fun c hc => hws c (List.mem_reverse.mp hc)),
    List.reverse_reverse]

/-- C9: createTask on a name matching /^[a-zA-Z0-9_-]+$/ that is not yet
a task id succeeds with the fresh record (totalTime 0, no sessions), and
getTask then returns that record; createTask on any string not matching
the pattern fails and leaves the store unchanged. -/
theorem createTask_roundtrip (now : Int) (name : String) (st : State) :
    (isValidTaskName name = true → objGet st.tasks name = none →
      (createTask now name st).1 = .created
        { id := name, name := name, created := now, totalTime := 0,
          sessions := [], goals := [] } ∧
      getTask (createTask now name st).2 name = some
        { id := name, name := name, created := now, totalTime := 0,
          sessions := [], goals := [] }) ∧
    (isValidTaskName name = false →
      (createTask now name st).2 = st ∧
      ∀ tk, (createTask now name st).1 ≠ .created tk) := by
  constructor
  · intro hv hg
    have hne : ¬ (name = "" ∨ jsTrim name = "") := by
      rintro (rfl | htr)
      · exact absurd hv (by decide)
      · rw [jsTrim_of_valid hv] at htr
        subst htr
        exact absurd hv (by decide)
    constructor
    · simp [createTask, hne, hv, hg]
    · simp [createTask, hne, hv, hg, getTask, objGet_objSet_self]
  · intro hv
    by_cases hne : name = "" ∨ jsTrim name = ""
    · simp [createTask, hne]
    · simp [createTask, hne, hv]

/-- Witness for C9: creating "abc" in the empty store at time 7 and
reading it back. -/
theorem createTask_roundtrip_witness :
    (createTask 7 "abc" initialState).1 = .created
      { id := "abc", name := "abc", created := 7, totalTime := 0,
        sessions := [], goals := [] } ∧
    getTask (createTask 7 "abc" initialState).2 "abc" = some
      { id := "abc", name := "abc", created := 7, totalTime := 0,
        sessions := [], goals := [] } :=
  (createTask_roundtrip 7 "abc" initialState).1 (by decide) (by decide)

/-! ## C8: setGoal validation and goal-registry update -/

theorem objSet_ne_nil {α : Type} (l : List (String × α)) (k : String) (v : α) :
    objSet l k v ≠ [] := by
  cases l with
  | nil => simp [objSet]
  | cons hd tl =>
    obtain ⟨k1, v1⟩ := hd
    by_cases hk : k1 = k <;> simp [objSet, hk]

theorem loadGoals_cons (k1 : String) (v1 : Task) (tl : List (String × Task)) :
    loadGoals ((k1, v1) :: tl) =
      if v1.goals = [] then loadGoals tl else (k1, v1.goals) :: loadGoals tl := by
  by_cases hv : v1.goals = [] <;> simp [loadGoals, hv]

theorem saveGoals_cons (k1 : String) (v1 : Task) (tl : List (String × Task))
    (gs : List (String × List (String × Int))) :
    saveGoals ((k1, v1) :: tl) gs =
      (k1, { v1 with goals := (objGet gs k1).getD [] }) :: saveGoals tl gs := rfl

theorem objGet_loadGoals_ne_nil {tasks : List (String × Task)} {id : String}
    {v : List (String × Int)} (h : objGet (loadGoals tasks) id = some v) : v ≠ [] := by
  induction tasks with
  | nil => simp [loadGoals, objGet] at h
  | cons hd tl ih =>
    obtain ⟨k1, v1⟩ := hd
    rw [loadGoals_cons] at h
    by_cases hv : v1.goals = []
    · rw [if_pos hv] at h
      exact ih h
    · rw [if_neg hv] at h
      by_cases hk : k1 = id
      · simp only [objGet, if_pos hk] at h
        obtain rfl : v1.goals = v := by simpa using h
        exact hv
      · simp only [objGet, if_neg hk] at h
        exact ih h

theorem objGet_tasks_isSome_of_loadGoals {tasks : List (String × Task)} {id : String}
    {v : List (String × Int)} (h : objGet (loadGoals tasks) id = some v) :
    (objGet tasks id).isSome = true := by
  induction tasks with
  | nil => simp [loadGoals, objGet] at h
  | cons hd tl ih =>
    obtain ⟨k1, v1⟩ := hd
    by_cases hk : k1 = id
    · simp [objGet, hk]
    · rw [loadGoals_cons] at h
      simp only [objGet, if_neg hk]
      by_cases hv : v1.goals = []
      · rw [if_pos hv] at h
        exact ih h
      · rw [if_neg hv] at h
        simp only [objGet, if_neg hk] at h
        exact ih h

theorem objGet_loadGoals_saveGoals (tasks : List (String × Task))
    (gs : List (String × List (String × Int))) (id : String) :
    objGet (loadGoals (saveGoals tasks gs)) id =
      if (objGet tasks id).isSome = true ∧ (objGet gs id).getD [] ≠ [] then
        some ((objGet gs id).getD []) else none := by
  induction tasks with
  | nil => simp [saveGoals, loadGoals, objGet]
  | cons hd tl ih =>
    obtain ⟨k1, tk1⟩ := hd
    rw [saveGoals_cons, loadGoals_cons]
    by_cases hk : k1 = id
    · subst hk
      by_cases hv : (objGet gs k1).getD [] = []
      · rw [if_pos (by simpa using hv), ih]
        simp [objGet, hv]
      · rw [if_neg (by simpa using hv)]
        simp [objGet, hv]
    · by_cases hv : (objGet gs k1).getD [] = []
      · rw [if_pos (by simpa using hv), ih]
        simp [objGet, hk]
      · rw [if_neg (by simpa using hv)]
        simp [objGet, hk, ih]

/-- C8: setGoal fails with the store unchanged when the period is not one
of the four recognised values, when the duration is non-positive, or when
the task does not exist; otherwise it succeeds, reports whether a goal
for that (task, period) already existed, overwrites exactly the
(taskId, period) entry while keeping the task's other period goals, and
leaves every other task's goals unchanged. -/
theorem setGoal_spec (st : State) (taskId period : String) (dur : Int) :
    (isValidGoalPeriod period = false →
       (setGoal taskId period dur st).1 = .invalidPeriod ∧
       (setGoal taskId period dur st).2 = st) ∧
    (isValidGoalPeriod period = true → dur ≤ 0 →
       (setGoal taskId period dur st).1 = .nonPositiveDuration ∧
       (setGoal taskId period dur st).2 = st) ∧
    (isValidGoalPeriod period = true → 0 < dur → getTask st taskId = none →
       (setGoal taskId period dur st).1 = .taskNotFound ∧
       (setGoal taskId period dur st).2 = st) ∧
    (∀ tk, isValidGoalPeriod period = true → 0 < dur → getTask st taskId = some tk →
       (setGoal taskId period dur st).1 =
         .saved ((objGet (getTaskGoals st taskId) period).isSome) ∧
       (∀ q, objGet (getTaskGoals (setGoal taskId period dur st).2 taskId) q =
         if q = period then some dur else objGet (getTaskGoals st taskId) q) ∧
       (∀ id, id ≠ taskId →
         getTaskGoals (setGoal taskId period dur st).2 id = getTaskGoals st id)) := by
  refine ⟨?_, ?_, ?_, ?_⟩
  · intro hp
    simp [setGoal, hp]
  · intro hp hd
    simp [setGoal, hp, hd]
  · intro hp hd hg
    simp [setGoal, hp, not_le.mpr hd, hg]
  · intro tk hp hd hg
    have hd2 : ¬ dur ≤ 0 := not_le.mpr hd
    have hbase : (setGoal taskId period dur st).2.tasks =
        saveGoals st.tasks (objSet (loadGoals st.tasks) taskId
          (objSet ((objGet (loadGoals st.tasks) taskId).getD []) period dur)) := by
      simp [setGoal, hp, hd2, hg]
    refine ⟨by simp [setGoal, hp, hd2, hg, getTaskGoals], ?_, ?_⟩
    · intro q
      rw [getTaskGoals, hbase, objGet_loadGoals_saveGoals]
      have hsome : (objGet st.tasks taskId).isSome = true := by
        rw [getTask] at hg
        simp [hg]
      rw [objGet_objSet_self]
      simp only [Option.getD_some, hsome, true_and]
      rw [if_pos (objSet_ne_nil _ _ _)]
      simp only [Option.getD_some]
      by_cases hq : q = period
      · subst hq
        simp [objGet_objSet_self, getTaskGoals]
      · rw [objGet_objSet_other _ _ _ _ hq, if_neg hq, getTaskGoals]
    · intro id hid
      rw [getTaskGoals, hbase, objGet_loadGoals_saveGoals,
        objGet_objSet_other _ _ _ _ hid, getTaskGoals]
      cases hv : objGet (loadGoals st.tasks) id with
      | none => simp [hv]
      | some v =>
        have hne := objGet_loadGoals_ne_nil hv
        have hsome := objGet_tasks_isSome_of_loadGoals hv
        simp [hv, hsome, hne]

/-- Witness for C8: in a store holding task "a" with no goals, setGoal
"a" daily 100 reports a fresh insert and the daily goal reads back as
100. -/
theorem setGoal_spec_witness :
    (setGoal "a" "daily" 100 (createTask 0 "a" initialState).2).1 = .saved false ∧
    objGet (getTaskGoals
      (setGoal "a" "daily" 100 (createTask 0 "a" initialState).2).2 "a") "daily" =
      some 100 := by
  have h := (setGoal_spec (createTask 0 "a" initialState).2 "a" "daily" 100).2.2.2
    { id := "a", name := "a", created := 0, totalTime := 0, sessions := [], goals := [] }
    (by decide) (by decide) (by decide)
  refine ⟨?_, ?_⟩
  · have h1 := h.1
    rw [h1]
    decide
  · have h2 := h.2.1 "daily"
    rw [h2]
    decide

/-! ## C5: goal progress formulas -/

/-- C5: for a task with goal g > 0 set for a period, getGoalProgress over
the period's canonical interval returns the record with actualTime the
sum of durations of the task's sessions whose start timestamp lies in
the inclusive interval, percentage = round(actual/goal × 100),
isAchieved ↔ actual ≥ goal, remainingTime = max 0 (goal − actual) and
overTime = max 0 (actual − goal). -/
theorem getGoalProgress_spec (st : State) (taskId period : String)
    (intStart intEnd g : Int) (tk : Task)
    (htk : objGet st.tasks taskId = some tk)
    (hgoal : objGet (getTaskGoals st taskId) period = some g)
    (hpos : 0 < g) :
    ∃ pr, getGoalProgress st taskId period intStart intEnd = some pr ∧
      pr.goalTime = g ∧
      pr.actualTime = ((tk.sessions.filter (fun s =>
          decide (intStart ≤ s.startTime) && decide (s.startTime ≤ intEnd))).map
          (fun s => s.duration)).sum ∧
      pr.percentage = jsRound ((pr.actualTime : ℚ) / (g : ℚ) * 100) ∧
      (pr.isAchieved = true ↔ g ≤ pr.actualTime) ∧
      pr.remainingTime = max 0 (g - pr.actualTime) ∧
      pr.overTime = max 0 (pr.actualTime - g) := by
  have hg0 : ¬ g = 0 := by omega
  simp only [getGoalProgress, hgoal, if_neg hg0]
  refine ⟨_, rfl, rfl, ?_, rfl, ?_, rfl, ?_⟩
  · simp [getActualTimeForPeriod, getTask, htk]
  · dsimp only
    exact decide_eq_true_iff
  · dsimp only
    by_cases hlt : g < getActualTimeForPeriod st taskId intStart intEnd
    · rw [if_pos hlt]
      omega
    · rw [if_neg hlt]
      omega

/-- Witness for C5, the spec's worked example: task "coding" with a
daily goal of 4h (14400000 ms) and one 1h session inside the day's
interval; progress is 1h actual, 25%, not achieved, 3h remaining, no
overtime. -/
theorem getGoalProgress_spec_witness :
    getGoalProgress
      { tasks := [("coding",
          { id := "coding", name := "coding", created := 0, totalTime := 3600000,
            sessions := [{ task := "coding", startTime := 1000, endTime := 3601000,
                           duration := 3600000 }],
            goals := [("daily", 14400000)] })],
        tracking := initialTracking } "coding" "daily" 0 86399999 =
      some { goalTime := 14400000, actualTime := 3600000, percentage := 25,
             isAchieved := false, remainingTime := 10800000, overTime := 0 } := by
  obtain ⟨pr, hpr, h1, h2, h3, h4, h5, h6⟩ := getGoalProgress_spec
    { tasks := [("coding",
        { id := "coding", name := "coding", created := 0, totalTime := 3600000,
          sessions := [{ task := "coding", startTime := 1000, endTime := 3601000,
                         duration := 3600000 }],
          goals := [("daily", 14400000)] })],
      tracking := initialTracking } "coding" "daily" 0 86399999 14400000
    { id := "coding", name := "coding", created := 0, totalTime := 3600000,
      sessions := [{ task := "coding", startTime := 1000, endTime := 3601000,
                     duration := 3600000 }],
      goals := [("daily", 14400000)] }
    (by decide) (by decide) (by decide)
  rw [hpr]
  have ha : pr.actualTime = 3600000 := by
    rw [h2]
    decide
  have hach : pr.isAchieved = false := by
    rcases Bool.eq_false_or_eq_true pr.isAchieved with hb | hb
    · rw [ha] at h4
      exact absurd (h4.mp hb) (by decide)
    · exact hb
  have hperc : pr.percentage = 25 := by
    rw [h3, ha, jsRound]
    norm_num
  obtain ⟨g1, a1, p1, ach1, r1, o1⟩ := pr
  simp only at h1 ha hach hperc h5 h6
  subst h1 ha hach hperc
  rw [h5, h6]
  norm_num

/-! ## C6: additivity of the aggregation totals -/

theorem filterSessions_nil_of_lt (l : List Session) (A B : Int) (h : B < A) :
    filterSessionsByDateRange l A B = [] := by
  rw [filterSessionsByDateRange, List.filter_eq_nil_iff]
  intro s hs
  simp only [Bool.and_eq_true, decide_eq_true_iff, not_and]
  omega

theorem sumDurations_filter_cons_pos {p : Session → Bool} {hd : Session}
    (tl : List Session) (hp : p hd = true) :
    sumDurations (List.filter p (hd :: tl)) =
      hd.duration + sumDurations (List.filter p tl) := by
  simp [List.filter_cons, hp, sumDurations]

theorem sumDurations_filter_cons_neg {p : Session → Bool} {hd : Session}
    (tl : List Session) (hp : p hd = false) :
    sumDurations (List.filter p (hd :: tl)) = sumDurations (List.filter p tl) := by
  simp [List.filter_cons, hp]

theorem sumDurations_filter_split {f g h : Session → Bool} (l : List Session)
    (hcov : ∀ s, h s = true ↔ (f s = true ∨ g s = true))
    (hdis : ∀ s, ¬(f s = true ∧ g s = true)) :
    sumDurations (l.filter h) =
      sumDurations (l.filter f) + sumDurations (l.filter g) := by
  induction l with
  | nil => simp [sumDurations]
  | cons hd tl ih =>
    rcases hf : f hd <;> rcases hg : g hd
    · have hh : h hd = false := by
        rcases Bool.eq_false_or_eq_true (h hd) with hb | hb
        · rcases (hcov hd).mp hb with hc | hc
          · rw [hf] at hc
            exact absurd hc (by simp)
          · rw [hg] at hc
            exact absurd hc (by simp)
        · exact hb
      rw [sumDurations_filter_cons_neg tl hf, sumDurations_filter_cons_neg tl hg,
        sumDurations_filter_cons_neg tl hh, ih]
    · have hh : h hd = true := (hcov hd).mpr (Or.inr hg)
      rw [sumDurations_filter_cons_neg tl hf, sumDurations_filter_cons_pos tl hg,
        sumDurations_filter_cons_pos tl hh, ih]
      ring
    · have hh : h hd = true := (hcov hd).mpr (Or.inl hf)
      rw [sumDurations_filter_cons_pos tl hf, sumDurations_filter_cons_neg tl hg,
        sumDurations_filter_cons_pos tl hh, ih]
      ring
    · exact absurd ⟨hf, hg⟩ (hdis hd)

theorem sumDurations_range_split (l : List Session) (A B C : Int)
    (h1 : A ≤ B + 1) (h2 : B ≤ C) :
    sumDurations (filterSessionsByDateRange l A C) =
      sumDurations (filterSessionsByDateRange l A B) +
      sumDurations (filterSessionsByDateRange l (B + 1) C) := by
  refine sumDurations_filter_split l (fun s => ?_) (fun s => ?_)
  · simp only [Bool.and_eq_true, decide_eq_true_iff]
    omega
  · simp only [Bool.and_eq_true, decide_eq_true_iff]
    omega

theorem sum_buckets_eq (l : List Session) (A : Int) (n : Nat) :
    ((List.range n).map (fun (i : Nat) =>
        sumDurations (filterSessionsByDateRange l (A + (i : Int) * dayMs)
          (A + (i : Int) * dayMs + dayMs - 1)))).sum =
      sumDurations (filterSessionsByDateRange l A (A + (n : Int) * dayMs - 1)) := by
  induction n with
  | zero =>
    rw [List.range_zero, List.map_nil, List.sum_nil,
      filterSessions_nil_of_lt l _ _ (by simp [dayMs])]
    rfl
  | succ n ih =>
    rw [List.range_succ, List.map_append, List.sum_append, ih, List.map_cons,
      List.map_nil, List.sum_cons, List.sum_nil]
    rw [sumDurations_range_split l A (A + (n : Int) * dayMs - 1)
        (A + ((n + 1 : Nat) : Int) * dayMs - 1)
        (by simp only [dayMs]; omega)
        (by push_cast; simp only [dayMs]; omega)]
    have he : A + (n : Int) * dayMs - 1 + 1 = A + (n : Int) * dayMs := by ring
    rw [he]
    have he2 : A + ((n + 1 : Nat) : Int) * dayMs - 1 =
        A + (n : Int) * dayMs + dayMs - 1 := by
      push_cast
      ring
    rw [he2]
    ring

theorem sumDurations_filter_of_subset (l : List Session) (A B A2 B2 : Int)
    (hA : A ≤ A2) (hB : B2 ≤ B) :
    filterSessionsByDateRange (filterSessionsByDateRange l A B) A2 B2 =
      filterSessionsByDateRange l A2 B2 := by
  rw [filterSessionsByDateRange, filterSessionsByDateRange, List.filter_filter,
    filterSessionsByDateRange]
  refine List.filter_congr (fun s hs => ?_)
  by_cases h2 : A2 ≤ s.startTime ∧ s.startTime ≤ B2
  · have h1a : A ≤ s.startTime := by omega
    have h1b : s.startTime ≤ B := by omega
    simp [h2.1, h2.2, h1a, h1b]
  · rcases not_and_or.mp h2 with hna | hnb
    · simp [hna]
    · simp [hnb]

theorem sum_totals_insertIntoGroups (acc : List TaskGroup) (s : Session) :
    ((insertIntoGroups acc s).map (fun g => g.totalTime)).sum =
      (acc.map (fun g => g.totalTime)).sum + s.duration := by
  induction acc with
  | nil => simp [insertIntoGroups]
  | cons g rest ih =>
    by_cases hn : g.name = s.task
    · simp only [insertIntoGroups, if_pos hn, List.map_cons, List.sum_cons]
      ring
    · simp only [insertIntoGroups, if_neg hn, List.map_cons, List.sum_cons, ih]
      ring

theorem sum_totals_groupSessions (l : List Session) :
    ((groupSessionsByTask l).map (fun g => g.totalTime)).sum = sumDurations l := by
  suffices hgen : ∀ acc, ((l.foldl insertIntoGroups acc).map (fun g => g.totalTime)).sum
      = (acc.map (fun g => g.totalTime)).sum + sumDurations l by
    simpa [groupSessionsByTask, sumDurations] using hgen []
  induction l with
  | nil =>
    intro acc
    simp [sumDurations]
  | cons hd tl ih =>
    intro acc
    rw [List.foldl_cons, ih, sum_totals_insertIntoGroups]
    simp only [sumDurations, List.map_cons, List.sum_cons]
    rw [show ((List.map (fun s => s.duration) tl).sum : Int) = sumDurations tl from rfl]
    ring

theorem sum_totals_sortByTotalDesc (l : List TaskGroup) :
    ((sortByTotalDesc l).map (fun g => g.totalTime)).sum =
      (l.map (fun g => g.totalTime)).sum :=
  List.Perm.sum_eq ((List.mergeSort_perm l _).map _)

theorem monthIntervals_length (A : Int) (lens : List Int) :
    (monthIntervals A lens).length = lens.length := by
  induction lens generalizing A with
  | nil => rfl
  | cons len rest ih => simp [monthIntervals, ih]

theorem monthIntervals_mem_bounds {lens : List Int} (hpos : ∀ x ∈ lens, 0 ≤ x)
    {A : Int} {mi : Int × Int} (hmi : mi ∈ monthIntervals A lens) :
    A ≤ mi.1 ∧ 0 ≤ mi.2 ∧ mi.1 + mi.2 * dayMs ≤ A + lens.sum * dayMs := by
  induction lens generalizing A with
  | nil => simp [monthIntervals] at hmi
  | cons len rest ih =>
    have hsum : 0 ≤ rest.sum :=
      List.sum_nonneg (fun x hx => hpos x (List.mem_cons_of_mem _ hx))
    have hlen : 0 ≤ len := hpos len (List.mem_cons_self _ _)
    rw [monthIntervals] at hmi
    rcases List.mem_cons.mp hmi with rfl | hmem
    · refine ⟨le_refl _, hlen, ?_⟩
      simp only [List.sum_cons, dayMs]
      omega
    · have hb := ih (fun x hx => hpos x (List.mem_cons_of_mem _ hx)) hmem
      simp only [dayMs] at hb ⊢
      simp only [List.sum_cons]
      omega

theorem sum_monthIntervals_eq (l : List Session) (lens : List Int)
    (hpos : ∀ x ∈ lens, 0 ≤ x) (A : Int) :
    ((monthIntervals A lens).map (fun mi =>
        sumDurations (filterSessionsByDateRange l mi.1 (mi.1 + mi.2 * dayMs - 1)))).sum
      = sumDurations (filterSessionsByDateRange l A (A + lens.sum * dayMs - 1)) := by
  induction lens generalizing A with
  | nil =>
    rw [monthIntervals, List.map_nil, List.sum_nil,
      filterSessions_nil_of_lt l _ _ (by simp [dayMs])]
    rfl
  | cons len rest ih =>
    have hsum : 0 ≤ rest.sum :=
      List.sum_nonneg (fun x hx => hpos x (List.mem_cons_of_mem _ hx))
    have hlen : 0 ≤ len := hpos len (List.mem_cons_self _ _)
    rw [monthIntervals, List.map_cons, List.sum_cons,
      ih (fun x hx => hpos x (List.mem_cons_of_mem _ hx)),
      sumDurations_range_split l A (A + len * dayMs - 1) (A + (len :: rest).sum * dayMs - 1)
        (by simp only [dayMs]; omega)
        (by simp only [List.sum_cons, dayMs]; omega)]
    have he : A + len * dayMs - 1 + 1 = A + len * dayMs := by ring
    have he2 : A + (len :: rest).sum * dayMs - 1 =
        A + len * dayMs + rest.sum * dayMs - 1 := by
      simp only [List.sum_cons]
      ring
    rw [he, he2]

theorem weekly_buckets_total (l : List Session) (A : Int) :
    ((List.range 7).map (fun (i : Nat) =>
        sumDurations (filterSessionsByDateRange
          (filterSessionsByDateRange l A (A + 7 * dayMs - 1))
          (A + (i : Int) * dayMs) (A + (i : Int) * dayMs + dayMs - 1)))).sum =
      sumDurations (filterSessionsByDateRange l A (A + 7 * dayMs - 1)) := by
  have hcollapse : ∀ i ∈ List.range 7,
      sumDurations (filterSessionsByDateRange
        (filterSessionsByDateRange l A (A + 7 * dayMs - 1))
        (A + (i : Int) * dayMs) (A + (i : Int) * dayMs + dayMs - 1)) =
      sumDurations (filterSessionsByDateRange l
        (A + (i : Int) * dayMs) (A + (i : Int) * dayMs + dayMs - 1)) := by
    intro i hi
    have hi7 : i < 7 := List.mem_range.mp hi
    rw [sumDurations_filter_of_subset l A (A + 7 * dayMs - 1) _ _
      (by simp only [dayMs]; omega) (by simp only [dayMs]; omega)]
  rw [List.map_congr_left hcollapse, sum_buckets_eq]
  norm_num

theorem yearly_buckets_total (l : List Session) (A : Int) (lens : List Int)
    (hpos : ∀ x ∈ lens, 0 ≤ x) :
    ((monthIntervals A lens).map (fun mi =>
        sumDurations (filterSessionsByDateRange
          (filterSessionsByDateRange l A (A + lens.sum * dayMs - 1))
          mi.1 (mi.1 + mi.2 * dayMs - 1)))).sum =
      sumDurations (filterSessionsByDateRange l A (A + lens.sum * dayMs - 1)) := by
  have hcollapse : ∀ mi ∈ monthIntervals A lens,
      sumDurations (filterSessionsByDateRange
        (filterSessionsByDateRange l A (A + lens.sum * dayMs - 1))
        mi.1 (mi.1 + mi.2 * dayMs - 1)) =
      sumDurations (filterSessionsByDateRange l mi.1 (mi.1 + mi.2 * dayMs - 1)) := by
    intro mi hmi
    obtain ⟨hb1, hb2, hb3⟩ := monthIntervals_mem_bounds hpos hmi
    rw [sumDurations_filter_of_subset l A (A + lens.sum * dayMs - 1) _ _ hb1 (by omega)]
  rw [List.map_congr_left hcollapse, sum_monthIntervals_eq l lens hpos]

/-- C6: the aggregation totals are additive: the 7 dailyBreakdown totals
of a weekly report sum to the week's totalTime; the 12 monthlyBreakdown
totals of a yearly report sum to the year's totalTime; and in each of the
four interval reports the per-task group totals sum to that interval's
totalTime. -/
theorem analytics_totals_additive :
    (∀ (tasks : List (String × Task)) (weekStart : Int),
      (((getWeeklyAnalytics tasks weekStart).dailyBreakdown.map
          (fun b => b.totalTime)).sum = (getWeeklyAnalytics tasks weekStart).totalTime) ∧
      (getWeeklyAnalytics tasks weekStart).dailyBreakdown.length = 7) ∧
    (∀ (tasks : List (String × Task)) (yearStart : Int) (leap : Bool),
      (((getYearlyAnalytics tasks yearStart leap).monthlyBreakdown.map
          (fun b => b.totalTime)).sum =
        (getYearlyAnalytics tasks yearStart leap).totalTime) ∧
      (getYearlyAnalytics tasks yearStart leap).monthlyBreakdown.length = 12) ∧
    (∀ (tasks : List (String × Task)) (dayStart : Int),
      ((getDailyAnalytics tasks dayStart).tasks.map (fun g => g.totalTime)).sum =
        (getDailyAnalytics tasks dayStart).totalTime) ∧
    (∀ (tasks : List (String × Task)) (weekStart : Int),
      ((getWeeklyAnalytics tasks weekStart).tasks.map (fun g => g.totalTime)).sum =
        (getWeeklyAnalytics tasks weekStart).totalTime) ∧
    (∀ (tasks : List (String × Task)) (monthStart monthLen : Int),
      ((getMonthlyAnalytics tasks monthStart monthLen).tasks.map
          (fun g => g.totalTime)).sum =
        (getMonthlyAnalytics tasks monthStart monthLen).totalTime) ∧
    (∀ (tasks : List (String × Task)) (yearStart : Int) (leap : Bool),
      ((getYearlyAnalytics tasks yearStart leap).tasks.map (fun g => g.totalTime)).sum =
        (getYearlyAnalytics tasks yearStart leap).totalTime) := by
  refine ⟨?_, ?_, ?_, ?_, ?_, ?_⟩
  · intro tasks weekStart
    constructor
    · simp only [getWeeklyAnalytics, List.map_map, Function.comp]
      rw [sum_totals_groupSessions]
      exact weekly_buckets_total (allSessionsOf tasks) weekStart
    · simp [getWeeklyAnalytics]
  · intro tasks yearStart leap
    have hpos : ∀ x ∈ monthLengths leap, 0 ≤ x := by
      cases leap <;> decide
    constructor
    · simp only [getYearlyAnalytics, List.map_map, Function.comp]
      rw [sum_totals_groupSessions]
      exact yearly_buckets_total (allSessionsOf tasks) yearStart (monthLengths leap) hpos
    · simp only [getYearlyAnalytics, List.length_map, monthIntervals_length]
      cases leap <;> rfl
  · intro tasks dayStart
    simp only [getDailyAnalytics]
    rw [sum_totals_sortByTotalDesc]
  · intro tasks weekStart
    simp only [getWeeklyAnalytics]
    rw [sum_totals_sortByTotalDesc]
  · intro tasks monthStart monthLen
    simp only [getMonthlyAnalytics]
    rw [sum_totals_sortByTotalDesc]
  · intro tasks yearStart leap
    simp only [getYearlyAnalytics]
    rw [sum_totals_sortByTotalDesc]

/-! ## C3: the goal streak counters -/

theorem maxRunAux_ge (t : Nat) (l : List Bool) : t ≤ maxRunAux t l := by
  induction l generalizing t with
  | nil => exact le_refl t
  | cons b rest ih =>
    cases b with
    | true =>
      calc t ≤ t + 1 := Nat.le_succ t
        _ ≤ maxRunAux (t + 1) rest := ih (t + 1)
        _ = maxRunAux t (true :: rest) := by simp [maxRunAux]
    | false =>
      calc t ≤ max t (maxRunAux 0 rest) := le_max_left _ _
        _ = maxRunAux t (false :: rest) := by simp [maxRunAux]

theorem runFrom_replicate (t : Nat) : runFrom (List.replicate t true) = t := by
  induction t with
  | zero => rfl
  | succ n ih => simp [List.replicate_succ, runFrom, ih]

theorem runFrom_replicate_append_false (t : Nat) (rest : List Bool) :
    runFrom (List.replicate t true ++ false :: rest) = t := by
  induction t with
  | zero => simp [runFrom]
  | succ n ih => simp [List.replicate_succ, runFrom, ih]

theorem maxRun_replicate (t : Nat) : maxRun (List.replicate t true) = t := by
  induction t with
  | zero => rfl
  | succ n ih =>
    rw [List.replicate_succ, maxRun, ← List.replicate_succ, runFrom_replicate, ih]
    exact Nat.max_eq_left (Nat.le_succ n)

theorem maxRun_replicate_append_false (t : Nat) (rest : List Bool) :
    maxRun (List.replicate t true ++ false :: rest) = max t (maxRun rest) := by
  induction t with
  | zero => simp [maxRun, runFrom]
  | succ n ih =>
    rw [List.replicate_succ, List.cons_append, maxRun, ih,
      ← List.cons_append, ← List.replicate_succ, runFrom_replicate_append_false]
    rw [← Nat.max_assoc, Nat.max_eq_left (Nat.le_succ n)]

theorem maxRunAux_eq (t : Nat) (l : List Bool) :
    maxRunAux t l = maxRun (List.replicate t true ++ l) := by
  induction l generalizing t with
  | nil => simp [maxRunAux, maxRun_replicate]
  | cons b rest ih =>
    cases b with
    | true =>
      rw [show maxRunAux t (true :: rest) = maxRunAux (t + 1) rest from by
        simp [maxRunAux], ih (t + 1)]
      congr 1
      rw [List.replicate_succ', List.append_assoc, List.singleton_append]
    | false =>
      rw [show maxRunAux t (false :: rest) = max t (maxRunAux 0 rest) from by
        simp [maxRunAux], ih 0, List.replicate_zero, List.nil_append,
        maxRun_replicate_append_false]

theorem foldl_streakStep_nonzero (g : Int) (f : Nat → Int) (idx : List Nat)
    (hidx : ∀ i ∈ idx, i ≠ 0) (c L A T : Nat) (hTL : T ≤ L) :
    idx.foldl (streakStep g f)
        { currentStreak := c, longestStreak := L, totalAchieved := A,
          tempStreak := T } =
      { currentStreak := c
        longestStreak := max L (maxRunAux T (idx.map (fun i => decide (g ≤ f i))))
        totalAchieved := A + (idx.map (fun i => decide (g ≤ f i))).count true
        tempStreak := trailAux T (idx.map (fun i => decide (g ≤ f i))) } := by
  induction idx generalizing c L A T with
  | nil => simp [maxRunAux, trailAux, Nat.max_eq_left hTL]
  | cons i rest ih =>
    have hi : i ≠ 0 := hidx i (List.mem_cons_self _ _)
    have hrest : ∀ j ∈ rest, j ≠ 0 := fun j hj => hidx j (List.mem_cons_of_mem _ hj)
    by_cases hach : g ≤ f i
    · rw [List.foldl_cons,
        show streakStep g f
          { currentStreak := c, longestStreak := L, totalAchieved := A,
            tempStreak := T } i =
          { currentStreak := c, longestStreak := max L (T + 1), totalAchieved := A + 1,
            tempStreak := T + 1 } from by simp [streakStep, hach, hi],
        ih hrest c (max L (T + 1)) (A + 1) (T + 1) (le_max_right _ _)]
      have hflag : decide (g ≤ f i) = true := decide_eq_true hach
      simp only [List.map_cons, hflag, maxRunAux, trailAux, List.count_cons,
        if_true]
      have hge := maxRunAux_ge (T + 1) (rest.map (fun j => decide (g ≤ f j)))
      rw [Nat.max_assoc, Nat.max_eq_right hge]
      simp [Nat.add_assoc, Nat.add_comm]
    · rw [List.foldl_cons,
        show streakStep g f
          { currentStreak := c, longestStreak := L, totalAchieved := A,
            tempStreak := T } i =
          { currentStreak := c, longestStreak := L, totalAchieved := A,
            tempStreak := 0 } from by simp [streakStep, hach, hi],
        ih hrest c L A 0 (Nat.zero_le L)]
      have hflag : decide (g ≤ f i) = false := decide_eq_false hach
      simp only [List.map_cons, hflag, maxRunAux, trailAux, List.count_cons,
        Bool.false_eq_true, if_false]
      rw [← Nat.max_assoc, Nat.max_eq_left hTL]
      simp

/-- The list of 30 flags decomposed as most-recent flag followed by the
29 older instances. -/
theorem achievedList_decomp (g : Int) (f : Nat → Int) :
    achievedList g f =
      decide (g ≤ f 0) :: ((List.range 29).map (fun i => decide (g ≤ f (i + 1)))) := by
  rw [achievedList, show (30 : Nat) = 29 + 1 from rfl, List.range_succ_eq_map,
    List.map_cons, List.map_map]
  rfl

/-- C3 counterexample: with every one of the 30 instances achieved
(goal 5, actual 10 everywhere), the code's currentStreak is 1, while the
claimed value — the count of consecutive achieved instances from the most
recent — is 30. -/
theorem getGoalStreak_currentStreak_counterexample :
    (getGoalStreak 5 (fun _ => 10)).currentStreak ≠
      runFrom (achievedList 5 (fun _ => 10)) ∧
    (getGoalStreak 5 (fun _ => 10)).currentStreak = 1 ∧
    runFrom (achievedList 5 (fun _ => 10)) = 30 := by
  refine ⟨?_, ?_, ?_⟩ <;> decide

/-- C3 (amended): over the 30 most recent period instances, getGoalStreak
returns longestStreak = the longest run of consecutive achieved instances
anywhere in the window and totalAchieved = the number of achieved
instances, as claimed; but currentStreak is only 1 when the most recent
instance is achieved and 0 otherwise (the loop assigns it only at i = 0),
not the full count of consecutive achieved instances from the most
recent. -/
theorem getGoalStreak_spec (g : Int) (f : Nat → Int) :
    getGoalStreak g f =
      { currentStreak := if g ≤ f 0 then 1 else 0
        longestStreak := maxRun (achievedList g f)
        totalAchieved := (achievedList g f).count true } := by
  have hne : ∀ i ∈ (List.range 29).map Nat.succ, i ≠ 0 := by simp
  have hmaps : ((List.range 29).map Nat.succ).map (fun i => decide (g ≤ f i)) =
      (List.range 29).map (fun i => decide (g ≤ f (i + 1))) := by
    rw [List.map_map]
    rfl
  simp only [getGoalStreak]
  rw [show (30 : Nat) = 29 + 1 from rfl, List.range_succ_eq_map, List.foldl_cons]
  by_cases hach : g ≤ f 0
  · rw [show streakStep g f
        { currentStreak := 0, longestStreak := 0, totalAchieved := 0,
          tempStreak := 0 } 0 =
        { currentStreak := 1, longestStreak := 1, totalAchieved := 1,
          tempStreak := 1 } from by simp [streakStep, hach],
      foldl_streakStep_nonzero g f _ hne 1 1 1 1 (le_refl 1), hmaps,
      achievedList_decomp, decide_eq_true hach, if_pos hach]
    have hge := maxRunAux_ge 1 ((List.range 29).map (fun i => decide (g ≤ f (i + 1))))
    congr 1
    · rw [Nat.max_eq_right hge, maxRunAux_eq]
      simp
    · rw [List.count_cons]
      simp [Nat.add_comm]
  · rw [show streakStep g f
        { currentStreak := 0, longestStreak := 0, totalAchieved := 0,
          tempStreak := 0 } 0 =
        { currentStreak := 0, longestStreak := 0, totalAchieved := 0,
          tempStreak := 0 } from by simp [streakStep, hach],
      foldl_streakStep_nonzero g f _ hne 0 0 0 0 (le_refl 0), hmaps,
      achievedList_decomp, decide_eq_false hach, if_neg hach]
    congr 1
    · rw [Nat.zero_max, maxRunAux_eq, List.replicate_zero, List.nil_append, maxRun]
      rw [show runFrom
          (false :: ((List.range 29).map (fun i => decide (g ≤ f (i + 1))))) = 0 from by
        simp [runFrom]]
      rw [Nat.zero_max]
    · rw [List.count_cons]
      simp

end TT
